import Mathlib

set_option maxRecDepth 20000

/- Shallow embedding of fetch_models.py (Perplexity model fetcher).

   Modelling conventions, fixed once for the whole development:
   - Python strings are Lean String values; character-level work is done on
     String.data (a List Char).  All inputs of interest are ASCII, and the
     embedding of case-insensitive matching lowers both sides with
     Char.toLower, which agrees with Python's casing on ASCII.
   - The HTTP layer is represented by explicit inputs: the primary page fetch
     is an (Except String Response) value (error = transport exception), and
     the auxiliary settings endpoints are a function from endpoint path to an
     EndpointResult value.
   - Python exceptions inside pure parsing code are modelled with
     (Except String ...) results; the string is the exception kind. -/

structure ModelInfo where
  identifier : String
  name : String
  description : String := ""
  mode : String := "copilot"
  provider : String := "unknown"
  is_pro : Bool := false
  supports_reasoning : Bool := false
deriving DecidableEq, Repr

def ModelInfo.to_dict (m : ModelInfo) : List (String × String) :=
  [("identifier", m.identifier), ("name", m.name), ("description", m.description),
   ("mode", m.mode), ("provider", m.provider),
   ("is_pro", if m.is_pro then "True" else "False"),
   ("supports_reasoning", if m.supports_reasoning then "True" else "False")]

/-- Lower-cased character list of a string (models Python str.lower on ASCII). -/
def lowerChars (s : String) : List Char := s.data.map Char.toLower

/-- Substring test on character lists (models Python "needle in hay"). -/
def hasSubstr (needle : List Char) : List Char → Bool
  | [] => needle.isEmpty
  | c :: t => needle.isPrefixOf (c :: t) || hasSubstr needle t

/-- Case-insensitive substring test: models Python (needle in s.lower())
    with an ASCII lower-case needle. -/
def containsCI (needle : String) (s : String) : Bool :=
  hasSubstr needle.data (lowerChars s)

/-- The shapes of the allow-list regexes of _is_valid_model_id: each is either
    an anchored literal, or the anchored gpt-digit pattern. -/
inductive IdPat where
  | lit : String → IdPat
  | gptDigit : IdPat
deriving DecidableEq

/-- Matching one allow-list pattern against the lowered identifier
    (models re.match with re.IGNORECASE). -/
def idPatMatch : IdPat → List Char → Bool
  | .lit p, l => p.data.isPrefixOf l
  | .gptDigit, l =>
      match l with
      | 'g' :: 'p' :: 't' :: d :: _ => d.isDigit
      | _ => false

/-- valid_patterns of _is_valid_model_id, in source order. -/
def valid_patterns : List IdPat :=
  [.lit "pplx_", .gptDigit, .lit "claude", .lit "gemini", .lit "grok",
   .lit "sonar", .lit "experimental", .lit "kimi", .lit "llama",
   .lit "mistral", .lit "deepseek"]

/-- exclude_patterns of _is_valid_model_id, in source order (each is an
    anchored literal regex). -/
def exclude_patterns : List String :=
  ["api_", "user_", "session", "token", "auth", "config"]

/-- _is_valid_model_id: empty or short strings are rejected, then the deny
    loop runs before the allow loop; a loop over patterns returning on first
    hit is embedded as List.any. -/
def _is_valid_model_id (model_id : String) : Bool :=
  if model_id.data.length < 3 then false
  else if exclude_patterns.any (fun p => p.data.isPrefixOf (lowerChars model_id)) then
    false
  else
    valid_patterns.any (fun q => idPatMatch q (lowerChars model_id))

/-- One step of Python str.title on ASCII: an alphabetic character is
    upper-cased when the previous character was not alphabetic, otherwise
    lower-cased; other characters pass through. -/
def titleAux : List Char → Bool → List Char
  | [], _ => []
  | c :: t, prevAlpha =>
      (if c.isAlpha then (if prevAlpha then c.toLower else c.toUpper) else c)
        :: titleAux t c.isAlpha

def pyTitle (cs : List Char) : List Char := titleAux cs false

/-- First-match association lookup (models dict.get on a literal dict with
    distinct keys). -/
def assocStr : List (String × String) → String → Option String
  | [], _ => none
  | (k, v) :: rest, key => if k = key then some v else assocStr rest key

/-- name_mappings of _infer_model_name, verbatim from the source. -/
def name_mappings : List (String × String) :=
  [("pplx_beta", "Perplexity Labs"),
   ("pplx_alpha", "Perplexity Research"),
   ("pplx_pro", "Perplexity Pro (Auto)"),
   ("experimental", "Sonar"),
   ("gpt51", "GPT-5.1"),
   ("gpt52", "GPT-5.2"),
   ("gpt51_thinking", "GPT-5.1 Thinking"),
   ("claude45sonnet", "Claude 4.5 Sonnet"),
   ("claude45sonnetthinking", "Claude 4.5 Sonnet Thinking"),
   ("claudeopus45", "Claude Opus 4.5"),
   ("gemini30pro", "Gemini 3.0 Pro Thinking"),
   ("grok41nonreasoning", "Grok 4.1"),
   ("kimik2thinking", "Kimi K2 Thinking")]

/-- _infer_model_name: table lookup, else replace underscores by spaces and
    title-case. -/
def _infer_model_name (model_id : String) : String :=
  match assocStr name_mappings model_id with
  | some n => n
  | none =>
      String.mk (pyTitle (model_id.data.map (fun c => if c = '_' then ' ' else c)))

/-- _infer_provider: the if/elif chain from the source. -/
def _infer_provider (model_id : String) : String :=
  let l := lowerChars model_id
  if "pplx".data.isPrefixOf l || l = "experimental".data then "Perplexity"
  else if "gpt".data.isPrefixOf l then "OpenAI"
  else if "claude".data.isPrefixOf l then "Anthropic"
  else if "gemini".data.isPrefixOf l then "Google"
  else if "grok".data.isPrefixOf l then "xAI"
  else if "kimi".data.isPrefixOf l then "Moonshot AI"
  else if "llama".data.isPrefixOf l then "Meta"
  else if "mistral".data.isPrefixOf l then "Mistral AI"
  else if "deepseek".data.isPrefixOf l then "DeepSeek"
  else "Unknown"

/-- The provider rules of the spec as an ordered table: each entry is a test
    on the lowered identifier and a provider name; used to state that
    _infer_provider is a first-match lookup in a fixed priority order. -/
def providerRules : List ((List Char → Bool) × String) :=
  [(fun l => "pplx".data.isPrefixOf l || l = "experimental".data, "Perplexity"),
   (fun l => "gpt".data.isPrefixOf l, "OpenAI"),
   (fun l => "claude".data.isPrefixOf l, "Anthropic"),
   (fun l => "gemini".data.isPrefixOf l, "Google"),
   (fun l => "grok".data.isPrefixOf l, "xAI"),
   (fun l => "kimi".data.isPrefixOf l, "Moonshot AI"),
   (fun l => "llama".data.isPrefixOf l, "Meta"),
   (fun l => "mistral".data.isPrefixOf l, "Mistral AI"),
   (fun l => "deepseek".data.isPrefixOf l, "DeepSeek")]

/-- First rule of the table whose test accepts the lowered identifier, else
    the "Unknown" default. -/
def firstRule : List ((List Char → Bool) × String) → List Char → String
  | [], _ => "Unknown"
  | (t, n) :: rest, l => if t l then n else firstRule rest l

/-- _create_model_info: metadata inference for a bare identifier. -/
def _create_model_info (model_id : String) : ModelInfo :=
  let name := _infer_model_name model_id
  let provider := _infer_provider model_id
  { identifier := model_id
    name := name
    description := provider ++ " model"
    mode := "copilot"
    provider := provider
    is_pro := containsCI "pro" model_id || containsCI "alpha" model_id
    supports_reasoning := containsCI "thinking" model_id || containsCI "reasoning" model_id }

deriving instance DecidableEq for Except

/- ===== JSON values (result of json.loads) =====
   Mutual inductive so that all traversals are structurally recursive.
   A JObj is an insertion-ordered dict with distinct keys, as produced by
   json.loads (later duplicate keys overwrite in place). -/

mutual
inductive Json where
  | str : String → Json
  | num : Int → Json
  | bool : Bool → Json
  | null : Json
  | arr : JList → Json
  | obj : JObj → Json

inductive JList where
  | nil : JList
  | cons : Json → JList → JList

inductive JObj where
  | nil : JObj
  | cons : String → Json → JObj → JObj
end

def JList.ofList : List Json → JList
  | [] => .nil
  | j :: t => .cons j (JList.ofList t)

def JObj.ofList : List (String × Json) → JObj
  | [] => .nil
  | (k, v) :: t => .cons k v (JObj.ofList t)

def JObj.lookup : JObj → String → Option Json
  | .nil, _ => none
  | .cons k v rest, key => if k = key then some v else JObj.lookup rest key

def JObj.hasKey (o : JObj) (key : String) : Bool := (o.lookup key).isSome

def JObj.length : JObj → Nat
  | .nil => 0
  | .cons _ _ rest => rest.length + 1

def JList.length : JList → Nat
  | .nil => 0
  | .cons _ rest => rest.length + 1

def JList.toList : JList → List Json
  | .nil => []
  | .cons j rest => j :: rest.toList

/-- Python truthiness of a JSON value. -/
def pyTruthy : Json → Bool
  | .str s => s ≠ ""
  | .num n => n ≠ 0
  | .bool b => b
  | .null => false
  | .arr l => l.length ≠ 0
  | .obj o => o.length ≠ 0

/-- Python (a or b) over two dict.get results (None when the key is absent):
    the first operand when it is present and truthy, otherwise the second. -/
def pyOrJ (a b : Option Json) : Option Json :=
  match a with
  | some v => if pyTruthy v then some v else b
  | none => b

/-- dict.get with a string default, as used for the metadata fields of a
    model record.  The Python code stores the raw JSON value in the ModelInfo
    field; this embedding keeps the string content when the field holds a
    string and the default otherwise (the settled claims never involve
    records whose metadata fields hold non-strings). -/
def getStrD (o : JObj) (key : String) (dflt : String) : String :=
  match o.lookup key with
  | some (.str s) => s
  | _ => dflt

/-- The ModelInfo synthesized by search_dict from a mapping node with valid
    string identifier s (Pass A of the extractor). -/
def mkModelA (o : JObj) (s : String) : ModelInfo :=
  { identifier := s
    name := getStrD o "name" s
    description := getStrD o "description" ""
    mode := getStrD o "mode" "copilot"
    provider := getStrD o "provider" "unknown"
    is_pro := (match o.lookup "isPro" with
               | some v => pyTruthy v
               | none => false)
    supports_reasoning := containsCI "thinking" s || containsCI "reasoning" s }

/-- The model-definition check of search_dict on one mapping node value:
    ok none      = no model appended, walk continues;
    ok (some m)  = m appended;
    error        = a Python TypeError escapes (a truthy non-string identifier
                   value reaches len() or re.match()). -/
def tryModel (value : JObj) : Except String (Option ModelInfo) :=
  if value.hasKey "identifier" || value.hasKey "modelId" then
    match pyOrJ (value.lookup "identifier") (value.lookup "modelId") with
    | none => .ok none
    | some v =>
      if pyTruthy v then
        match v with
        | .str s => .ok (if _is_valid_model_id s then some (mkModelA value s) else none)
        | .arr l => if l.length < 3 then .ok none else .error "TypeError"
        | .obj o => if o.length < 3 then .ok none else .error "TypeError"
        | _ => .error "TypeError"
      else .ok none
  else .ok none

/- ===== search_dict (the recursive walk of _parse_next_data) =====
   search_dict(d, depth) returns immediately when depth > 10; the walk is
   entered at depth 0 on the parsed top-level mapping.  For each key-value
   pair: a mapping value is checked as a model definition and then recursed
   into at depth+1; a sequence value has its mapping elements recursed into
   at depth+1 (other elements are skipped); scalar values are skipped.
   The callee-side depth guard of the source is placed at the call sites
   here, which is equivalent. -/

mutual
def walkFields : JObj → Nat → Except String (List ModelInfo)
  | .nil, _ => .ok []
  | .cons _ v rest, depth =>
      match walkVal v depth with
      | .error e => .error e
      | .ok ms =>
          match walkFields rest depth with
          | .error e => .error e
          | .ok ms2 => .ok (ms ++ ms2)

def walkVal : Json → Nat → Except String (List ModelInfo)
  | .obj inner, depth =>
      match tryModel inner with
      | .error e => .error e
      | .ok m? =>
          match (if depth + 1 > 10 then .ok [] else walkFields inner (depth + 1)) with
          | .error e => .error e
          | .ok ms => .ok ((match m? with | some m => [m] | none => []) ++ ms)
  | .arr items, depth => walkItems items depth
  | _, _ => .ok []

def walkItems : JList → Nat → Except String (List ModelInfo)
  | .nil, _ => .ok []
  | .cons item rest, depth =>
      match (match item with
             | .obj inner => if depth + 1 > 10 then Except.ok [] else walkFields inner (depth + 1)
             | _ => Except.ok []) with
      | .error e => .error e
      | .ok ms =>
          match walkItems rest depth with
          | .error e => .error e
          | .ok ms2 => .ok (ms ++ ms2)
end

/-- _parse_next_data: search_dict(data) on a mapping; on any other value the
    Python attribute access data.items() raises AttributeError, which is not
    caught inside the extractor. -/
def _parse_next_data (data : Json) : Except String (List ModelInfo) :=
  match data with
  | .obj fields => walkFields fields 0
  | _ => .error "AttributeError"

/- ===== Pass B: the free-text regex scan ===== -/

/-- Character class [a-z0-9_] under re.IGNORECASE. -/
def isIdChar (c : Char) : Bool :=
  ('a' ≤ c && c ≤ 'z') || ('A' ≤ c && c ≤ 'Z') || ('0' ≤ c && c ≤ '9') || c = '_'

/-- ASCII whitespace matched by the regex escape for whitespace. -/
def isWsRe (c : Char) : Bool :=
  c = ' ' || c = '\t' || c = '\n' || c = '\r' || c = Char.ofNat 11 || c = Char.ofNat 12

/-- The single-quote character, written by code point. -/
def squote : Char := Char.ofNat 39

/-- Match a literal case-insensitively at the front, returning the rest. -/
def matchLitCI : List Char → List Char → Option (List Char)
  | [], cs => some cs
  | _ :: _, [] => none
  | p :: ps, c :: cs => if p.toLower = c.toLower then matchLitCI ps cs else none

/-- Matcher for the first two free-text patterns: a double-quoted key, then
    optional whitespace, a colon, optional whitespace, and a double-quoted
    run of identifier characters, which is the capture.  Greedy pieces need
    no backtracking: the character after each starred class is not in the
    class. -/
def matchQuotedKeyPat (key : String) (cs : List Char) : Option (String × List Char) :=
  match matchLitCI ('"' :: key.data ++ ['"']) cs with
  | none => none
  | some r1 =>
    match r1.dropWhile isWsRe with
    | ':' :: r3 =>
      match r3.dropWhile isWsRe with
      | '"' :: r5 =>
        let cap := r5.takeWhile isIdChar
        match r5.dropWhile isIdChar with
        | '"' :: r7 => if cap.isEmpty then none else some (String.mk cap, r7)
        | _ => none
      | _ => none
    | _ => none

/-- Matcher for the third free-text pattern: the literal modelId, an optional
    quote, optional whitespace, a colon or equals sign, optional whitespace, a
    quote, the captured identifier run, and a closing quote.  The optional
    quote is deterministic: a quote is not whitespace and not a colon or
    equals sign, so when the next character is a quote only the consuming
    branch of the regex can succeed, and when it is not, only the skipping
    branch can. -/
def matchModelIdPat (cs : List Char) : Option (String × List Char) :=
  match matchLitCI "modelid".data cs with
  | none => none
  | some r1 =>
    let r2 := match r1 with
              | q :: rest => if q = '"' || q = squote then rest else r1
              | [] => r1
    match r2.dropWhile isWsRe with
    | c :: r4 =>
      if c = ':' || c = '=' then
        match r4.dropWhile isWsRe with
        | q2 :: r6 =>
          if q2 = '"' || q2 = squote then
            let cap := r6.takeWhile isIdChar
            match r6.dropWhile isIdChar with
            | q3 :: r8 =>
                if (q3 = '"' || q3 = squote) && !cap.isEmpty then some (String.mk cap, r8)
                else none
            | [] => none
          else none
        | [] => none
      else none
    | [] => none

/-- re.finditer: scan left to right; on a match, emit the capture and resume
    after the whole match; otherwise advance one character.  Every match here
    consumes at least one character, so fuel equal to the text length is
    enough for the scan to run to the end of the text. -/
def scanAux (m : List Char → Option (String × List Char)) : Nat → List Char → List String
  | 0, _ => []
  | _ + 1, [] => []
  | fuel + 1, c :: rest =>
      match m (c :: rest) with
      | some (id, rem) => id :: scanAux m fuel rem
      | none => scanAux m fuel rest

def reFinditerCaptures (m : List Char → Option (String × List Char)) (text : String) :
    List String :=
  scanAux m text.data.length text.data

/-- All captures of the three model_patterns of _extract_models_from_html,
    in pattern order. -/
def model_pattern_captures (html : String) : List String :=
  reFinditerCaptures (matchQuotedKeyPat "identifier") html
    ++ reFinditerCaptures (matchQuotedKeyPat "model") html
    ++ reFinditerCaptures matchModelIdPat html

/-- Keep first occurrences, dropping later duplicates. -/
def dedupFirstAux : List String → List String → List String
  | [], _ => []
  | x :: xs, seen =>
      if seen.contains x then dedupFirstAux xs seen
      else x :: dedupFirstAux xs (x :: seen)

def dedupFirst (l : List String) : List String := dedupFirstAux l []

/-- found_ids of _extract_models_from_html: the valid captures, as a set.
    Python iterates a set, whose order is unspecified; the embedding fixes
    first-occurrence order, and no settled claim depends on that order. -/
def foundIds (html : String) : List String :=
  dedupFirst ((model_pattern_captures html).filter _is_valid_model_id)

/- ===== The embedded-script search ===== -/

/-- Drop through the first occurrence of needle, returning what follows it. -/
def dropAfterFirst (needle : List Char) : List Char → Option (List Char)
  | [] => if needle.isEmpty then some [] else none
  | c :: t =>
      if needle.isPrefixOf (c :: t) then some ((c :: t).drop needle.length)
      else dropAfterFirst needle t

/-- The part strictly before the first occurrence of needle. -/
def splitBeforeFirst (needle : List Char) : List Char → Option (List Char)
  | [] => if needle.isEmpty then some [] else none
  | c :: t =>
      if needle.isPrefixOf (c :: t) then some []
      else match splitBeforeFirst needle t with
           | some pre => some (c :: pre)
           | none => none

def nextDataOpenTag : String := "<script id=\"__NEXT_DATA__\" type=\"application/json\">"

/-- The next_data_pattern search: the pattern is a literal open tag, a
    non-greedy dot-all group, and a literal close tag, so the leftmost match
    starts at the first open tag and captures up to the first close tag after
    it; if either is missing there is no match at all. -/
def findNextData (html : String) : Option String :=
  match dropAfterFirst nextDataOpenTag.data html.data with
  | none => none
  | some rest =>
      match splitBeforeFirst "</script>".data rest with
      | some content => some (String.mk content)
      | none => none

/- ===== json.loads =====
   A strict recursive-descent parser for the JSON subset the page data uses:
   objects, arrays, double-quoted strings with the single-character escapes,
   integers, true, false, null.  Unicode escapes and floats are not modelled;
   on them the embedded loads fails where Python would succeed, which no
   settled claim depends on.  Duplicate object keys overwrite in place, as in
   Python (first position, last value).  Failure models JSONDecodeError. -/

def jsonWsChar (c : Char) : Bool := c = ' ' || c = '\t' || c = '\n' || c = '\r'

def lbrace : Char := Char.ofNat 123

def rbrace : Char := Char.ofNat 125

/-- String body after an opening quote: content up to the closing quote. -/
def parseJString : List Char → Option (List Char × List Char)
  | [] => none
  | c :: rest =>
    if c = '"' then some ([], rest)
    else if c = '\\' then
      match rest with
      | [] => none
      | e :: rest2 =>
        let dec : Option Char :=
          if e = '"' then some '"'
          else if e = '\\' then some '\\'
          else if e = '/' then some '/'
          else if e = 'n' then some '\n'
          else if e = 't' then some '\t'
          else if e = 'r' then some '\r'
          else if e = 'b' then some (Char.ofNat 8)
          else if e = 'f' then some (Char.ofNat 12)
          else none
        match dec with
        | none => none
        | some d =>
          match parseJString rest2 with
          | some (cs, r) => some (d :: cs, r)
          | none => none
    else
      match parseJString rest with
      | some (cs, r) => some (c :: cs, r)
      | none => none

def digitsVal (ds : List Char) : Nat :=
  ds.foldl (fun a c => a * 10 + (c.toNat - '0'.toNat)) 0

/-- An integer token; a following decimal point or exponent is unmodelled. -/
def parseIntTok (cs : List Char) : Option (Json × List Char) :=
  let p := match cs with
           | '-' :: t => (true, t)
           | _ => (false, cs)
  let ds := p.2.takeWhile Char.isDigit
  let r := p.2.dropWhile Char.isDigit
  if ds.isEmpty then none
  else match r with
    | '.' :: _ => none
    | 'e' :: _ => none
    | 'E' :: _ => none
    | _ => some (.num (if p.1 then -(digitsVal ds : Int) else (digitsVal ds : Int)), r)

/-- Insert with dict semantics: overwrite in place, else append. -/
def JObj.setKey : JObj → String → Json → JObj
  | .nil, k, v => .cons k v .nil
  | .cons k' v' rest, k, v =>
      if k' = k then .cons k' v rest else .cons k' v' (JObj.setKey rest k v)

def JObj.setAll : JObj → JObj → JObj
  | acc, .nil => acc
  | acc, .cons k v rest => JObj.setAll (acc.setKey k v) rest

mutual
def parseVal : Nat → List Char → Option (Json × List Char)
  | 0, _ => none
  | fuel + 1, cs =>
    match cs.dropWhile jsonWsChar with
    | [] => none
    | c :: rest =>
      if c = lbrace then
        match rest.dropWhile jsonWsChar with
        | c2 :: rest2 =>
            if c2 = rbrace then some (.obj .nil, rest2)
            else
              match parseMemberSeq fuel (rest.dropWhile jsonWsChar) with
              | some (raw, r) => some (.obj (JObj.setAll .nil raw), r)
              | none => none
        | [] => none
      else if c = '[' then
        match rest.dropWhile jsonWsChar with
        | c2 :: rest2 =>
            if c2 = ']' then some (.arr .nil, rest2)
            else
              match parseItemSeq fuel (rest.dropWhile jsonWsChar) with
              | some (l, r) => some (.arr l, r)
              | none => none
        | [] => none
      else if c = '"' then
        match parseJString rest with
        | some (content, r) => some (.str (String.mk content), r)
        | none => none
      else if c = 't' then
        match rest with
        | 'r' :: 'u' :: 'e' :: r => some (.bool true, r)
        | _ => none
      else if c = 'f' then
        match rest with
        | 'a' :: 'l' :: 's' :: 'e' :: r => some (.bool false, r)
        | _ => none
      else if c = 'n' then
        match rest with
        | 'u' :: 'l' :: 'l' :: r => some (.null, r)
        | _ => none
      else parseIntTok (c :: rest)

def parseItemSeq : Nat → List Char → Option (JList × List Char)
  | 0, _ => none
  | fuel + 1, cs =>
    match parseVal fuel cs with
    | none => none
    | some (v, r) =>
      match r.dropWhile jsonWsChar with
      | c :: rest =>
          if c = ',' then
            match parseItemSeq fuel rest with
            | some (t, r2) => some (.cons v t, r2)
            | none => none
          else if c = ']' then some (.cons v .nil, rest)
          else none
      | [] => none

def parseMemberSeq : Nat → List Char → Option (JObj × List Char)
  | 0, _ => none
  | fuel + 1, cs =>
    match cs.dropWhile jsonWsChar with
    | c :: rest =>
      if c = '"' then
        match parseJString rest with
        | none => none
        | some (key, r) =>
          match r.dropWhile jsonWsChar with
          | ':' :: r2 =>
            match parseVal fuel r2 with
            | none => none
            | some (v, r3) =>
              match r3.dropWhile jsonWsChar with
              | c2 :: rest2 =>
                if c2 = ',' then
                  match parseMemberSeq fuel rest2 with
                  | some (t, r4) => some (.cons (String.mk key) v t, r4)
                  | none => none
                else if c2 = rbrace then some (.cons (String.mk key) v .nil, rest2)
                else none
              | [] => none
          | _ => none
      else none
    | [] => none
end

/-- json.loads: parse one value and require only whitespace after it.  Every
    recursive step above is preceded by consuming at least one character, so
    fuel one beyond the text length never runs out. -/
def json_loads (s : String) : Option Json :=
  match parseVal (s.data.length + 1) s.data with
  | some (j, r) => if (r.dropWhile jsonWsChar).isEmpty then some j else none
  | none => none

/- ===== The extractor and the fetch pipeline ===== -/

/-- Pass A of _extract_models_from_html: locate the embedded script, parse it
    as JSON (a parse failure is absorbed as zero models), and walk it.  The
    error case is the uncaught AttributeError of a non-mapping top level. -/
def passA_of (html : String) : Except String (List ModelInfo) :=
  match findNextData html with
  | some txt =>
      match json_loads txt with
      | some data => _parse_next_data data
      | none => .ok []
  | none => .ok []

/-- _extract_models_from_html: Pass A results, then the models created from
    found_ids whose identifier is not among the Pass A identifiers. -/
def _extract_models_from_html (html : String) : Except String (List ModelInfo) :=
  match passA_of html with
  | .error e => .error e
  | .ok passA =>
      let existing := passA.map (fun m => m.identifier)
      .ok (passA ++ ((foundIds html).filter (fun i => !existing.contains i)).map _create_model_info)

/-- One auxiliary endpoint interaction: whether the GET succeeded, its
    status, and the response.json() result (none = a body that fails to
    parse, so the per-endpoint handler swallows the error). -/
structure EndpointResult where
  netOk : Bool
  status : Nat
  body : Option Json

def settings_endpoints : List String := ["/api/auth/session", "/api/user/settings"]

def model_list_keys : List String := ["models", "availableModels", "supportedModels"]

/-- Element loop of _fetch_from_settings for one list of models: a string
    element is classified by _create_model_info; a mapping element with an
    identifier field becomes a ModelInfo with the record fields and defaults
    (provider is inferred, and the pro and reasoning flags stay at their
    dataclass defaults); other elements are skipped.  A mapping element whose
    identifier value is not a string makes the provider inference raise
    AttributeError: the flag marks that the rest of the endpoint is dropped
    while the models already built are kept. -/
def procElems : JList → List ModelInfo × Bool
  | .nil => ([], false)
  | .cons e rest =>
    match e with
    | .str s =>
        let p := procElems rest
        (_create_model_info s :: p.1, p.2)
    | .obj m =>
        match m.lookup "identifier" with
        | some (.str id) =>
            let info : ModelInfo :=
              { identifier := id
                name := getStrD m "name" id
                description := getStrD m "description" ""
                mode := getStrD m "mode" "copilot"
                provider := _infer_provider id
                is_pro := false
                supports_reasoning := false }
            let p := procElems rest
            (info :: p.1, p.2)
        | some _ => ([], true)
        | none => procElems rest
    | _ => procElems rest

/-- Key loop of _fetch_from_settings: the three known keys in order; only
    list values are consumed; an abort inside one list also abandons the
    remaining keys of this endpoint. -/
def procKeys : List String → JObj → List ModelInfo × Bool
  | [], _ => ([], false)
  | k :: rest, fields =>
    match fields.lookup k with
    | some (.arr l) =>
        let p := procElems l
        if p.2 then (p.1, true)
        else
          let q := procKeys rest fields
          (p.1 ++ q.1, q.2)
    | _ => procKeys rest fields

/-- Per-endpoint body handling: only a mapping is examined. -/
def procData : Json → List ModelInfo × Bool
  | .obj fields => procKeys model_list_keys fields
  | _ => ([], false)

/-- One endpoint of the settings loop: any network failure, non-200 status or
    parse failure contributes nothing and is swallowed. -/
def endpointModels (r : EndpointResult) : List ModelInfo :=
  if !r.netOk then []
  else if r.status ≠ 200 then []
  else
    match r.body with
    | none => []
    | some j => (procData j).1

/-- _fetch_from_settings: the fixed endpoint list in order, concatenating
    whatever each endpoint contributed. -/
def _fetch_from_settings (env : String → EndpointResult) : List ModelInfo :=
  ((settings_endpoints.map env).map endpointModels).flatten

/-- _get_default_models: the static fallback catalog, verbatim. -/
def _get_default_models : List ModelInfo :=
  [⟨"pplx_pro", "Perplexity Pro (Auto)", "Auto-selects the best model", "copilot", "Perplexity", true, false⟩,
   ⟨"pplx_alpha", "Perplexity Research", "Deep research mode", "copilot", "Perplexity", true, false⟩,
   ⟨"pplx_beta", "Perplexity Labs", "Experimental features", "copilot", "Perplexity", true, false⟩,
   ⟨"experimental", "Sonar", "Fast model for quick queries", "copilot", "Perplexity", false, false⟩,
   ⟨"gpt51", "GPT-5.1", "OpenAI\x27s GPT-5.1", "copilot", "OpenAI", true, false⟩,
   ⟨"gpt52", "GPT-5.2", "OpenAI\x27s GPT-5.2", "copilot", "OpenAI", true, false⟩,
   ⟨"gpt51_thinking", "GPT-5.1 Thinking", "GPT-5.1 with reasoning", "copilot", "OpenAI", true, true⟩,
   ⟨"claude45sonnet", "Claude 4.5 Sonnet", "Anthropic\x27s Claude 4.5 Sonnet", "copilot", "Anthropic", true, false⟩,
   ⟨"claude45sonnetthinking", "Claude 4.5 Sonnet Thinking", "Claude 4.5 with reasoning", "copilot", "Anthropic", true, true⟩,
   ⟨"claudeopus45", "Claude Opus 4.5", "Anthropic\x27s Claude Opus 4.5", "copilot", "Anthropic", true, false⟩,
   ⟨"gemini30pro", "Gemini 3.0 Pro Thinking", "Google\x27s Gemini with reasoning", "copilot", "Google", true, true⟩,
   ⟨"grok41nonreasoning", "Grok 4.1", "xAI\x27s Grok 4.1", "copilot", "xAI", true, false⟩,
   ⟨"kimik2thinking", "Kimi K2 Thinking", "Moonshot AI\x27s Kimi K2", "copilot", "Moonshot AI", true, true⟩]

/-- The primary page response: final status and body text. -/
structure Response where
  status : Nat
  text : String

def errLine (e : String) : String := "Error fetching models: " ++ e

/-- fetch_models.  The page fetch is the input: a transport error, or a
    response; raise_for_status raises on a 4xx or 5xx status.  Everything
    after session acquisition runs inside the catch-all, so a raised error
    yields the fallback catalog plus one stderr line (the second component
    collects stderr output).  On the non-raising path: extractor result,
    else settings result, else the fallback catalog. -/
def fetch_models (page : Except String Response) (env : String → EndpointResult) :
    List ModelInfo × List String :=
  match page with
  | .error e => (_get_default_models, [errLine e])
  | .ok resp =>
    if 400 ≤ resp.status then (_get_default_models, [errLine "HTTPError"])
    else
      match _extract_models_from_html resp.text with
      | .error e => (_get_default_models, [errLine e])
      | .ok ms0 =>
          let ms1 := if ms0.isEmpty then _fetch_from_settings env else ms0
          let ms2 := if ms1.isEmpty then _get_default_models else ms1
          (ms2, [])

/- ===== Concrete inputs used by counterexamples and witnesses ===== -/

/-- The ModelInfo that Pass A synthesizes for a bare sonar_x node. -/
def sm : ModelInfo := ⟨"sonar_x", "sonar_x", "", "copilot", "unknown", false, false⟩

/-- A page whose embedded JSON defines the same identifier at two distinct
    nodes; the raw text also matches the identifier free-text pattern. -/
def ex5html : String :=
  "<script id=\"__NEXT_DATA__\" type=\"application/json\">\x7b\"a\":\x7b\"identifier\":\"sonar_x\"\x7d,\"b\":\x7b\"identifier\":\"sonar_x\"\x7d\x7d</script>"

/-- A page whose embedded JSON has a non-mapping top level, so the walk
    raises AttributeError. -/
def badHtml : String :=
  "<script id=\"__NEXT_DATA__\" type=\"application/json\">[1]</script>"

/-- Nested singleton mappings: wrapJ n j places j at mapping-nesting depth n
    below the root (the root counts as depth 0). -/
def wrapJ : Nat → Json → Json
  | 0, j => j
  | n + 1, j => .obj (.cons "k" (wrapJ n j) .nil)

/-- A chain of mappings of depth n ending in a scalar. -/
def padJ : Nat → Json
  | 0 => .str "leaf"
  | n + 1 => .obj (.cons "p" (padJ n) .nil)

/-- A 15-level nested-mapping structure (mapping levels 0 through 14) whose
    model definition sits at nesting depth d. -/
def modelNodeAt (d : Nat) : Json :=
  wrapJ d (.obj (.cons "identifier" (.str "claude45sonnet")
                  (.cons "child" (padJ (14 - d)) .nil)))

/-- Settings environment whose first endpoint returns a model list holding a
    mapping with a one-character identifier and an empty name. -/
def c4env : String → EndpointResult := fun p =>
  if p = "/api/auth/session" then
    ⟨true, 200,
     some (.obj (.cons "models"
       (.arr (.cons (.obj (.cons "identifier" (.str "x") (.cons "name" (.str "") .nil))) .nil))
       .nil))⟩
  else ⟨false, 0, none⟩

/-- The element-level behavior the settings claim describes: a string is
    classified by inference; a mapping with a string identifier field becomes
    a record with defaults for its missing fields; anything else contributes
    nothing. -/
def settingsClassify : Json → List ModelInfo
  | .str s => [_create_model_info s]
  | .obj m =>
      match m.lookup "identifier" with
      | some (.str id) =>
          [{ identifier := id
             name := getStrD m "name" id
             description := getStrD m "description" ""
             mode := getStrD m "mode" "copilot"
             provider := _infer_provider id
             is_pro := false
             supports_reasoning := false }]
      | _ => []
  | _ => []

/-- Well-formedness of a settings list element: a mapping's identifier field,
    when present, holds a string (per the data model an identifier is a
    string); such elements never raise inside the endpoint loop. -/
def elemWFB : Json → Bool
  | .obj m =>
      match m.lookup "identifier" with
      | some (.str _) => true
      | some _ => false
      | none => true
  | _ => true

/- ===== Helper lemmas (shared) ===== -/

theorem hasSubstr_iff (needle : List Char) :
    ∀ hay, hasSubstr needle hay = true ↔ needle <:+: hay := by
  intro hay
  induction hay with
  | nil =>
      simp [hasSubstr, List.isEmpty_iff, List.infix_nil]
  | cons c t ih =>
      simp only [hasSubstr, Bool.or_eq_true, List.isPrefixOf_iff_prefix, ih,
        List.infix_cons_iff]

theorem valid_length {s : String} (h : _is_valid_model_id s = true) :
    3 ≤ s.data.length := by
  by_contra hlt
  simp only [_is_valid_model_id] at h
  rw [if_pos (by omega)] at h
  exact Bool.false_ne_true h

theorem assocStr_mem : ∀ (l : List (String × String)) (k v : String),
    assocStr l k = some v → v ∈ l.map Prod.snd
  | [], _, _, h => by simp [assocStr] at h
  | (a, b) :: rest, k, v, h => by
      simp only [assocStr] at h
      by_cases hk : a = k
      · rw [if_pos hk] at h
        cases h
        simp
      · rw [if_neg hk] at h
        simp only [List.map_cons, List.mem_cons]
        exact Or.inr (assocStr_mem rest k v h)

theorem titleAux_length : ∀ (cs : List Char) (b : Bool),
    (titleAux cs b).length = cs.length
  | [], _ => rfl
  | _ :: t, b => by simp [titleAux, titleAux_length t]

theorem infer_name_ne_empty {id : String} (h3 : 3 ≤ id.data.length) :
    _infer_model_name id ≠ "" := by
  unfold _infer_model_name
  cases hm : assocStr name_mappings id with
  | some n =>
      have hv : n ∈ name_mappings.map Prod.snd := assocStr_mem _ _ _ hm
      have : ∀ v ∈ name_mappings.map Prod.snd, v ≠ "" := by decide
      exact this n hv
  | none =>
      intro hc
      have : (pyTitle ((id.data.map (fun c => if c = '_' then ' ' else c)))).length = 0 := by
        have := congrArg String.data hc
        simpa using congrArg List.length this
      rw [pyTitle, titleAux_length, List.length_map] at this
      omega

theorem create_keeps_id (id : String) : (_create_model_info id).identifier = id := rfl

theorem create_name_ne_empty {id : String} (h : _is_valid_model_id id = true) :
    (_create_model_info id).name ≠ "" :=
  infer_name_ne_empty (valid_length h)

theorem mem_dedupFirstAux : ∀ (l seen : List String) (x : String),
    x ∈ dedupFirstAux l seen → x ∈ l
  | [], _, x, h => by simp [dedupFirstAux] at h
  | a :: as, seen, x, h => by
      rw [dedupFirstAux] at h
      by_cases hc : seen.contains a
      · rw [if_pos hc] at h
        exact List.mem_cons_of_mem a (mem_dedupFirstAux as seen x h)
      · rw [if_neg hc] at h
        rcases List.mem_cons.mp h with h1 | h2
        · exact h1 ▸ List.mem_cons_self a as
        · exact List.mem_cons_of_mem a (mem_dedupFirstAux as (a :: seen) x h2)

theorem mem_dedupFirst (l : List String) (x : String) (h : x ∈ dedupFirst l) : x ∈ l :=
  mem_dedupFirstAux l [] x h

theorem foundIds_valid {html : String} {i : String} (h : i ∈ foundIds html) :
    _is_valid_model_id i = true := by
  have := mem_dedupFirst _ _ h
  exact (List.mem_filter.mp this).2

theorem tryModel_valid (o : JObj) (m : ModelInfo)
    (h : tryModel o = Except.ok (some m)) : _is_valid_model_id m.identifier = true := by
  unfold tryModel at h
  split at h
  · split at h
    · simp at h
    · split at h
      · split at h
        · rename_i s
          split at h
          · rename_i hval
            injection h with h1
            injection h1 with h2
            rw [← h2]
            exact hval
          · simp at h
        · split at h <;> simp_all
        · split at h <;> simp_all
        · simp at h
      · simp at h
  · simp at h

mutual
theorem walkFields_valid : ∀ (o : JObj) (d : Nat) (ms : List ModelInfo),
    walkFields o d = Except.ok ms → ∀ m ∈ ms, _is_valid_model_id m.identifier = true
  | .nil, _, ms, h => by
      rw [walkFields] at h
      injection h with h1
      subst h1
      intro m hm
      simp at hm
  | .cons k v rest, d, ms, h => by
      rw [walkFields] at h
      cases hv : walkVal v d with
      | error e => rw [hv] at h; exact absurd h (by simp)
      | ok ms1 =>
        cases hr : walkFields rest d with
        | error e => rw [hv, hr] at h; exact absurd h (by simp)
        | ok ms2 =>
          rw [hv, hr] at h
          injection h with h1
          subst h1
          intro m hm
          rcases List.mem_append.mp hm with h1 | h2
          · exact walkVal_valid v d ms1 hv m h1
          · exact walkFields_valid rest d ms2 hr m h2

theorem walkVal_valid : ∀ (j : Json) (d : Nat) (ms : List ModelInfo),
    walkVal j d = Except.ok ms → ∀ m ∈ ms, _is_valid_model_id m.identifier = true
  | .obj inner, d, ms, h => by
      rw [walkVal] at h
      cases ht : tryModel inner with
      | error e => rw [ht] at h; exact absurd h (by simp)
      | ok m? =>
        rw [ht] at h
        cases hg : (if d + 1 > 10 then Except.ok [] else walkFields inner (d + 1)) with
        | error e => rw [hg] at h; exact absurd h (by simp)
        | ok ms1 =>
          rw [hg] at h
          injection h with h1
          subst h1
          intro m hm
          rcases List.mem_append.mp hm with h1 | h2
          · cases m? with
            | none => simp at h1
            | some m0 =>
                simp only [List.mem_singleton] at h1
                subst h1
                exact tryModel_valid inner m ht
          · by_cases hd : d + 1 > 10
            · rw [if_pos hd] at hg
              injection hg with hg1
              subst hg1
              simp at h2
            · rw [if_neg hd] at hg
              exact walkFields_valid inner (d + 1) ms1 hg m h2
  | .arr items, d, ms, h => by
      exact walkItems_valid items d ms h
  | .str s, d, ms, h => by
      injection h with h1
      subst h1
      intro m hm
      simp at hm
  | .num n, d, ms, h => by
      injection h with h1
      subst h1
      intro m hm
      simp at hm
  | .bool b, d, ms, h => by
      injection h with h1
      subst h1
      intro m hm
      simp at hm
  | .null, d, ms, h => by
      injection h with h1
      subst h1
      intro m hm
      simp at hm

theorem walkItems_valid : ∀ (l : JList) (d : Nat) (ms : List ModelInfo),
    walkItems l d = Except.ok ms → ∀ m ∈ ms, _is_valid_model_id m.identifier = true
  | .nil, _, ms, h => by
      rw [walkItems] at h
      injection h with h1
      subst h1
      intro m hm
      simp at hm
  | .cons item rest, d, ms, h => by
      have hstep : ∀ (first : Except String (List ModelInfo)),
          (∀ m1, first = Except.ok m1 → ∀ m ∈ m1, _is_valid_model_id m.identifier = true) →
          (match first with
           | Except.error e => Except.error e
           | Except.ok ms1 =>
               match walkItems rest d with
               | Except.error e => Except.error e
               | Except.ok ms2 => Except.ok (ms1 ++ ms2)) = Except.ok ms →
          ∀ m ∈ ms, _is_valid_model_id m.identifier = true := by
        intro first hfirst heq
        cases first with
        | error e => exact absurd heq (by simp)
        | ok ms1 =>
          cases hr : walkItems rest d with
          | error e => rw [hr] at heq; exact absurd heq (by simp)
          | ok ms2 =>
            rw [hr] at heq
            injection heq with h1
            subst h1
            intro m hm
            rcases List.mem_append.mp hm with h1 | h2
            · exact hfirst ms1 rfl m h1
            · exact walkItems_valid rest d ms2 hr m h2
      have hnil : ∀ m1, (Except.ok [] : Except String (List ModelInfo)) = Except.ok m1 →
          ∀ m ∈ m1, _is_valid_model_id m.identifier = true := by
        intro m1 hm1
        injection hm1 with h1
        subst h1
        intro m hm
        simp at hm
      cases item with
      | obj inner =>
          refine hstep (if d + 1 > 10 then Except.ok [] else walkFields inner (d + 1)) ?_ h
          intro m1 hm1
          by_cases hd : d + 1 > 10
          · rw [if_pos hd] at hm1
            exact hnil m1 hm1
          · rw [if_neg hd] at hm1
            exact walkFields_valid inner (d + 1) m1 hm1
      | str s => exact hstep (Except.ok []) hnil h
      | num n => exact hstep (Except.ok []) hnil h
      | bool b => exact hstep (Except.ok []) hnil h
      | null => exact hstep (Except.ok []) hnil h
      | arr l2 => exact hstep (Except.ok []) hnil h
end

theorem parse_next_data_valid (data : Json) (ms : List ModelInfo)
    (h : _parse_next_data data = Except.ok ms) :
    ∀ m ∈ ms, _is_valid_model_id m.identifier = true := by
  cases data with
  | obj fields => exact walkFields_valid fields 0 ms h
  | str s => exact absurd h (by simp [_parse_next_data])
  | num n => exact absurd h (by simp [_parse_next_data])
  | bool b => exact absurd h (by simp [_parse_next_data])
  | null => exact absurd h (by simp [_parse_next_data])
  | arr l => exact absurd h (by simp [_parse_next_data])

theorem passA_valid (html : String) (ms : List ModelInfo)
    (h : passA_of html = Except.ok ms) :
    ∀ m ∈ ms, _is_valid_model_id m.identifier = true := by
  unfold passA_of at h
  cases hf : findNextData html with
  | none =>
      simp only [hf] at h
      injection h with h1
      subst h1
      intro m hm
      simp at hm
  | some txt =>
      simp only [hf] at h
      cases hj : json_loads txt with
      | none =>
          simp only [hj] at h
          injection h with h1
          subst h1
          intro m hm
          simp at hm
      | some data =>
          simp only [hj] at h
          exact parse_next_data_valid data ms h

theorem extract_valid (html : String) (ms : List ModelInfo)
    (h : _extract_models_from_html html = Except.ok ms) :
    ∀ m ∈ ms, _is_valid_model_id m.identifier = true := by
  unfold _extract_models_from_html at h
  cases hp : passA_of html with
  | error e => rw [hp] at h; exact absurd h (by simp)
  | ok passA =>
      rw [hp] at h
      injection h with h1
      subst h1
      intro m hm
      rcases List.mem_append.mp hm with h1 | h2
      · exact passA_valid html passA hp m h1
      · rcases List.mem_map.mp h2 with ⟨i, hi, hcreate⟩
        rw [← hcreate, create_keeps_id]
        exact foundIds_valid (List.mem_filter.mp hi).1

/- ===== Claim theorems ===== -/

/-- C3: a candidate string is accepted by identifier validation iff it has
    length at least 3, starts (case-insensitively) with no deny-list prefix
    pattern, and starts (case-insensitively) with at least one allow-list
    pattern; deny checking precedes allow checking, and in particular
    api_internal_key is rejected. -/
theorem claim_C3_identifier_validation :
    (∀ s : String,
      _is_valid_model_id s = true ↔
        (3 ≤ s.data.length ∧
         (∀ p ∈ exclude_patterns, p.data.isPrefixOf (lowerChars s) = false) ∧
         (∃ q ∈ valid_patterns, idPatMatch q (lowerChars s) = true))) ∧
    _is_valid_model_id "api_internal_key" = false := by
  constructor
  · intro s
    simp only [_is_valid_model_id]
    split_ifs with h1 h2
    · simp only [false_iff]
      rintro ⟨h3, -, -⟩
      omega
    · simp only [false_iff]
      rintro ⟨-, hden, -⟩
      rw [List.any_eq_true] at h2
      obtain ⟨p, hp, hpp⟩ := h2
      rw [hden p hp] at hpp
      exact Bool.false_ne_true hpp
    · rw [List.any_eq_true]
      constructor
      · intro hex
        refine ⟨by omega, ?_, hex⟩
        rw [List.any_eq_true] at h2
        push_neg at h2
        intro p hp
        exact Bool.not_eq_true _ |>.mp (h2 p hp)
      · rintro ⟨-, -, hex⟩
        exact hex
  · decide

/-- C3 witness: the characterization instantiated at a concrete accepted
    identifier. -/
theorem claim_C3_identifier_validation_witness :
    3 ≤ ("claude45" : String).data.length ∧
    (∀ p ∈ exclude_patterns, p.data.isPrefixOf (lowerChars "claude45") = false) ∧
    (∃ q ∈ valid_patterns, idPatMatch q (lowerChars "claude45") = true) :=
  (claim_C3_identifier_validation.1 "claude45").mp (by decide)

/-- C9: metadata inference marks an identifier pro iff its lowering contains
    the substring pro or alpha, reasoning-capable iff it contains thinking or
    reasoning, and infers the provider by the first matching rule of the
    fixed priority table; claude45sonnetthinking maps to Anthropic with
    supports_reasoning true and is_pro false. -/
theorem claim_C9_metadata_inference :
    (∀ id : String,
      ((_create_model_info id).is_pro = true ↔
        ("pro".data <:+: lowerChars id ∨ "alpha".data <:+: lowerChars id)) ∧
      ((_create_model_info id).supports_reasoning = true ↔
        ("thinking".data <:+: lowerChars id ∨ "reasoning".data <:+: lowerChars id)) ∧
      (_create_model_info id).provider = firstRule providerRules (lowerChars id)) ∧
    ((_create_model_info "claude45sonnetthinking").provider = "Anthropic" ∧
     (_create_model_info "claude45sonnetthinking").supports_reasoning = true ∧
     (_create_model_info "claude45sonnetthinking").is_pro = false) := by
  refine ⟨fun id => ⟨?_, ?_, rfl⟩, by decide, by decide, by decide⟩
  · show (containsCI "pro" id || containsCI "alpha" id) = true ↔ _
    simp only [containsCI, Bool.or_eq_true, hasSubstr_iff]
  · show (containsCI "thinking" id || containsCI "reasoning" id) = true ↔ _
    simp only [containsCI, Bool.or_eq_true, hasSubstr_iff]

/-- C9 witness: the substring characterization instantiated at a concrete
    identifier containing pro. -/
theorem claim_C9_metadata_inference_witness :
    "pro".data <:+: lowerChars "gemini30pro" ∨ "alpha".data <:+: lowerChars "gemini30pro" :=
  ((claim_C9_metadata_inference.1 "gemini30pro").1).mp (by decide)

/-- C6: in a 15-level nested-mapping structure (root at depth 0) the walk of
    the embedded JSON extracts a valid model definition at nesting depth 9
    but not one at nesting depth 12, because recursion is cut off at the
    depth bound of 10. -/
theorem claim_C6_depth_bound :
    _parse_next_data (modelNodeAt 12) = .ok [] ∧
    _parse_next_data (modelNodeAt 9)
      = .ok [⟨"claude45sonnet", "claude45sonnet", "", "copilot", "unknown", false, false⟩] := by
  constructor
  · decide
  · decide

/-- C7 (as written) is false: a mapping that carries a valid identifier field
    is not turned into a ModelInfo when it is the root mapping, nor when it
    is an element of a sequence; only mappings that appear as the value of a
    field of a visited mapping are checked. -/
theorem claim_C7_counterexample :
    _is_valid_model_id "claude45sonnet" = true ∧
    _parse_next_data (.obj (.cons "identifier" (.str "claude45sonnet") .nil)) = .ok [] ∧
    walkItems (.cons (.obj (.cons "identifier" (.str "claude45sonnet") .nil)) .nil) 0
      = .ok [] := by
  refine ⟨by decide, by decide, by decide⟩

/-- C7 amended: whenever a mapping occurs as the value of a field of a
    mapping processed by the walk at depth at most 10, and its
    identifier-or-modelId check synthesizes a model (valid string
    identifier), that ModelInfo appears in the walk output. -/
theorem claim_C7_amended :
    ∀ (k : String) (inner rest : JObj) (d : Nat) (m : ModelInfo) (ms : List ModelInfo),
      d ≤ 10 →
      tryModel inner = Except.ok (some m) →
      walkFields (.cons k (.obj inner) rest) d = Except.ok ms →
      m ∈ ms := by
  intro k inner rest d m ms _ ht h
  have hv : walkVal (Json.obj inner) d
      = match (if d + 1 > 10 then Except.ok [] else walkFields inner (d + 1)) with
        | Except.error e => Except.error e
        | Except.ok ms1 => Except.ok ([m] ++ ms1) := by
    simp only [walkVal, ht]
  rw [walkFields, hv] at h
  cases hg : (if d + 1 > 10 then Except.ok [] else walkFields inner (d + 1)) with
  | error e => rw [hg] at h; exact absurd h (by simp)
  | ok ms1 =>
    rw [hg] at h
    cases hr : walkFields rest d with
    | error e => rw [hr] at h; exact absurd h (by simp)
    | ok ms2 =>
      rw [hr] at h
      injection h with h1
      subst h1
      simp

/-- C7 amended witness: a concrete mapping-valued field at depth 0. -/
theorem claim_C7_amended_witness :
    (⟨"claude45sonnet", "claude45sonnet", "", "copilot", "unknown", false, false⟩ : ModelInfo)
      ∈ [(⟨"claude45sonnet", "claude45sonnet", "", "copilot", "unknown", false, false⟩ : ModelInfo)] :=
  claim_C7_amended "a" (.cons "identifier" (.str "claude45sonnet") .nil) .nil 0 _ _
    (by omega) (by decide) (by decide)

/-- C1: every exception of the fetch-or-parse phase is caught at the top of
    fetch_models: a transport error, an HTTP error status, and an extractor
    exception each produce one stderr line and the static fallback catalog;
    stderr output only ever accompanies the fallback catalog, and the
    function totally returns a list on all inputs. -/
theorem claim_C1_exception_recovery :
    ∀ (env : String → EndpointResult),
      (∀ e, fetch_models (.error e) env = (_get_default_models, [errLine e])) ∧
      (∀ resp : Response, 400 ≤ resp.status →
          fetch_models (.ok resp) env = (_get_default_models, [errLine "HTTPError"])) ∧
      (∀ (resp : Response) (e : String), resp.status < 400 →
          _extract_models_from_html resp.text = .error e →
          fetch_models (.ok resp) env = (_get_default_models, [errLine e])) ∧
      (∀ page, (fetch_models page env).2 ≠ [] →
          (fetch_models page env).1 = _get_default_models) := by
  intro env
  refine ⟨fun e => rfl, ?_, ?_, ?_⟩
  · intro resp h
    simp only [fetch_models]
    rw [if_pos h]
  · intro resp e hst hx
    simp only [fetch_models]
    rw [if_neg (Nat.not_le.mpr hst)]
    simp only [hx]
  · intro page
    cases page with
    | error e => intro _; rfl
    | ok resp =>
      simp only [fetch_models]
      by_cases h4 : 400 ≤ resp.status
      · rw [if_pos h4]; intro _; rfl
      · rw [if_neg h4]
        cases hx : _extract_models_from_html resp.text with
        | error e => intro _; rfl
        | ok ms0 => intro hne; exact absurd rfl hne

/-- C1 witness: concrete transport error, concrete 500 status, and a concrete
    page whose embedded data has a non-mapping top level. -/
theorem claim_C1_exception_recovery_witness :
    fetch_models (Except.error "boom") (fun _ => ⟨false, 0, none⟩)
      = (_get_default_models, [errLine "boom"]) ∧
    fetch_models (.ok ⟨500, ""⟩) (fun _ => ⟨false, 0, none⟩)
      = (_get_default_models, [errLine "HTTPError"]) ∧
    fetch_models (.ok ⟨200, badHtml⟩) (fun _ => ⟨false, 0, none⟩)
      = (_get_default_models, [errLine "AttributeError"]) :=
  ⟨(claim_C1_exception_recovery _).1 "boom",
   (claim_C1_exception_recovery _).2.1 ⟨500, ""⟩ (by decide),
   (claim_C1_exception_recovery _).2.2.1 ⟨200, badHtml⟩ "AttributeError" (by decide) (by decide)⟩

/-- C2: when the page fetched without an HTTP error has no embedded-script
    match and no free-text pattern match, and the settings endpoints yield
    zero models, fetch_models returns exactly the static catalog, which has
    13 entries in its fixed order, with no stderr output. -/
theorem claim_C2_fallback_trigger :
    ∀ (resp : Response) (env : String → EndpointResult),
      resp.status < 400 →
      findNextData resp.text = none →
      model_pattern_captures resp.text = [] →
      _fetch_from_settings env = [] →
      fetch_models (.ok resp) env = (_get_default_models, []) ∧
      _get_default_models.length = 13 := by
  intro resp env hst hnf hcap hset
  have hextract : _extract_models_from_html resp.text = .ok [] := by
    unfold _extract_models_from_html passA_of
    simp [hnf, foundIds, hcap, dedupFirst, dedupFirstAux]
  refine ⟨?_, by decide⟩
  simp only [fetch_models]
  rw [if_neg (Nat.not_le.mpr hst)]
  simp only [hextract]
  simp [hset]

/-- C2 witness: a plain page body and dead endpoints. -/
theorem claim_C2_fallback_trigger_witness :
    fetch_models (.ok ⟨200, "hello"⟩) (fun _ => ⟨false, 0, none⟩)
      = (_get_default_models, []) ∧
    _get_default_models.length = 13 :=
  claim_C2_fallback_trigger ⟨200, "hello"⟩ (fun _ => ⟨false, 0, none⟩)
    (by decide) (by decide) (by decide) (by decide)

/-- C10: fetch_models never returns an empty list: the error path returns
    the 13-entry catalog, and on the normal path every empty intermediate
    result is replaced before returning. -/
theorem claim_C10_never_empty :
    ∀ (page : Except String Response) (env : String → EndpointResult),
      (fetch_models page env).1 ≠ [] := by
  have hdef : _get_default_models ≠ [] := by decide
  have hfinal : ∀ l : List ModelInfo, (if l.isEmpty then _get_default_models else l) ≠ [] := by
    intro l
    cases l with
    | nil => simpa using hdef
    | cons a t => simp
  intro page env
  cases page with
  | error e => exact hdef
  | ok resp =>
    simp only [fetch_models]
    by_cases h4 : 400 ≤ resp.status
    · rw [if_pos h4]; exact hdef
    · rw [if_neg h4]
      cases hx : _extract_models_from_html resp.text with
      | error e => exact hdef
      | ok ms0 => exact hfinal _

/-- C10 witness: a concrete input on the error path. -/
theorem claim_C10_never_empty_witness :
    (fetch_models (Except.error "down") (fun _ => ⟨false, 0, none⟩)).1 ≠ [] :=
  claim_C10_never_empty _ _

/-- C4 (as written) is false: the settings path neither validates identifiers
    nor guarantees names, so a settings endpoint can make fetch_models return
    a ModelInfo with a one-character identifier and an empty name. -/
theorem claim_C4_counterexample :
    ∃ m ∈ (fetch_models (.ok ⟨200, "no models here"⟩) c4env).1,
      m.identifier.data.length < 3 ∧ m.name = "" := by decide

/-- C4 amended: every ModelInfo produced by the page extractor (both passes)
    has an identifier of length at least 3; every fallback-catalog entry has
    identifier length at least 3 and a non-empty name; and every ModelInfo
    synthesized by metadata inference from a valid identifier has a non-empty
    name.  (Settings-endpoint entries are unvalidated, and an embedded-JSON
    record may carry an empty name field.) -/
theorem claim_C4_amended :
    (∀ (html : String) (ms : List ModelInfo), _extract_models_from_html html = .ok ms →
        ∀ m ∈ ms, 3 ≤ m.identifier.data.length) ∧
    (∀ m ∈ _get_default_models, 3 ≤ m.identifier.data.length ∧ m.name ≠ "") ∧
    (∀ id : String, _is_valid_model_id id = true →
        3 ≤ id.data.length ∧ (_create_model_info id).name ≠ "") := by
  refine ⟨?_, by decide, ?_⟩
  · intro html ms h m hm
    exact valid_length (extract_valid html ms h m hm)
  · intro id h
    exact ⟨valid_length h, create_name_ne_empty h⟩

/-- C4 amended witness: the extractor invariant at a concrete page, and name
    inference at a concrete valid identifier. -/
theorem claim_C4_amended_witness :
    3 ≤ sm.identifier.data.length ∧ (_create_model_info "sonar_x").name ≠ "" :=
  ⟨claim_C4_amended.1 ex5html [sm, sm] (by decide) sm (by decide),
   (claim_C4_amended.2.2 "sonar_x" (by decide)).2⟩

/-- C5 (as written) is false: Pass A is not de-duplicated, so when the
    embedded JSON yields the same identifier at two nodes and the free-text
    scan also produces it, the merged output holds two ModelInfo entries with
    that identifier, not exactly one. -/
theorem claim_C5_counterexample :
    passA_of ex5html = .ok [sm, sm] ∧
    "sonar_x" ∈ foundIds ex5html ∧
    _extract_models_from_html ex5html = .ok [sm, sm] := by
  refine ⟨by decide, by decide, by decide⟩

/-- C5 amended: the merge drops every Pass B candidate whose identifier
    already occurs among the Pass A results, so the output entries with such
    an identifier are exactly the Pass A entries (one entry exactly when Pass
    A produced it once, and it is the Pass A ModelInfo); the output is the
    Pass A list followed by the new Pass B entries, whose identifiers are not
    Pass A identifiers. -/
theorem claim_C5_amended :
    ∀ (html : String) (passA : List ModelInfo) (id : String) (ms : List ModelInfo),
      passA_of html = .ok passA →
      id ∈ passA.map (fun m => m.identifier) →
      _extract_models_from_html html = .ok ms →
      ms.filter (fun m => m.identifier == id) = passA.filter (fun m => m.identifier == id) ∧
      ∃ newB, ms = passA ++ newB ∧
        ∀ m ∈ newB, m.identifier ∉ passA.map (fun m2 => m2.identifier) := by
  intro html passA id ms hp hid hx
  unfold _extract_models_from_html at hx
  simp only [hp] at hx
  injection hx with hx1
  subst hx1
  set B := ((foundIds html).filter
      (fun i => !(passA.map (fun m => m.identifier)).contains i)).map _create_model_info with hB
  have hBnotin : ∀ m ∈ B, m.identifier ∉ passA.map (fun m2 => m2.identifier) := by
    intro m hm
    rcases List.mem_map.mp hm with ⟨i, hi, hci⟩
    rcases List.mem_filter.mp hi with ⟨-, hnotc⟩
    rw [← hci, create_keeps_id]
    simpa using hnotc
  refine ⟨?_, B, rfl, hBnotin⟩
  rw [List.filter_append]
  have hBnil : B.filter (fun m => m.identifier == id) = [] := by
    rw [List.filter_eq_nil_iff]
    intro m hm hbeq
    have hmi : m.identifier = id := by simpa using hbeq
    exact hBnotin m hm (hmi ▸ hid)
  rw [hBnil, List.append_nil]

/-- C5 amended witness: the de-duplication facts at the concrete duplicated
    page. -/
theorem claim_C5_amended_witness :
    ([sm, sm].filter (fun m => m.identifier == "sonar_x")
        = [sm, sm].filter (fun m => m.identifier == "sonar_x")) ∧
    ∃ newB, ([sm, sm] : List ModelInfo) = [sm, sm] ++ newB ∧
      ∀ m ∈ newB, m.identifier ∉ ([sm, sm] : List ModelInfo).map (fun m2 => m2.identifier) :=
  claim_C5_amended ex5html [sm, sm] "sonar_x" [sm, sm] (by decide) (by decide) (by decide)

/-- Element loop characterization used by C8: on well-formed elements the
    loop never aborts and acts elementwise. -/
theorem procElems_wf_flat : ∀ l : JList, (∀ e ∈ l.toList, elemWFB e = true) →
    procElems l = ((l.toList.map settingsClassify).flatten, false)
  | .nil, _ => by simp [procElems, JList.toList]
  | .cons e rest, hwf => by
      have hrest : ∀ x ∈ rest.toList, elemWFB x = true := by
        intro x hx
        exact hwf x (by simp [JList.toList]; exact Or.inr hx)
      have ih := procElems_wf_flat rest hrest
      cases e with
      | str s => simp [procElems, JList.toList, settingsClassify, ih]
      | obj m =>
          have hw := hwf (.obj m) (by simp [JList.toList])
          cases hl : m.lookup "identifier" with
          | some v =>
              cases v with
              | str id => simp [procElems, JList.toList, settingsClassify, hl, ih]
              | num n => simp [elemWFB, hl] at hw
              | bool b => simp [elemWFB, hl] at hw
              | null => simp [elemWFB, hl] at hw
              | arr l2 => simp [elemWFB, hl] at hw
              | obj o2 => simp [elemWFB, hl] at hw
          | none => simp [procElems, JList.toList, settingsClassify, hl, ih]
      | num n => simp [procElems, JList.toList, settingsClassify, ih]
      | bool b => simp [procElems, JList.toList, settingsClassify, ih]
      | null => simp [procElems, JList.toList, settingsClassify, ih]
      | arr l2 => simp [procElems, JList.toList, settingsClassify, ih]

/-- Key loop characterization used by C8. -/
theorem procKeys_wf : ∀ (ks : List String) (fields : JObj),
    (∀ k ∈ ks, ∀ l, fields.lookup k = some (.arr l) → ∀ e ∈ l.toList, elemWFB e = true) →
    procKeys ks fields
      = ((ks.map (fun k =>
            match fields.lookup k with
            | some (.arr l) => (l.toList.map settingsClassify).flatten
            | _ => [])).flatten, false)
  | [], _, _ => by simp [procKeys]
  | k :: rest, fields, hwf => by
      have ih := procKeys_wf rest fields (fun k2 hk2 => hwf k2 (List.mem_cons_of_mem _ hk2))
      cases hl : fields.lookup k with
      | some v =>
          cases v with
          | arr l =>
              have hel := procElems_wf_flat l (hwf k (List.mem_cons_self _ _) l hl)
              simp [procKeys, hl, hel, ih]
          | str s => simp [procKeys, hl, ih]
          | num n => simp [procKeys, hl, ih]
          | bool b => simp [procKeys, hl, ih]
          | null => simp [procKeys, hl, ih]
          | obj o2 => simp [procKeys, hl, ih]
      | none => simp [procKeys, hl, ih]

/-- C8: in the settings fetch, the lists found under the three known keys are
    processed elementwise: a plain-string element is classified by metadata
    inference, a mapping element with a string identifier field is passed
    through as a record with defaults for its missing fields, and other
    elements contribute nothing; the key loop concatenates the lists of the
    three keys in order. -/
theorem claim_C8_settings_elements :
    (∀ l : JList, (∀ e ∈ l.toList, elemWFB e = true) →
        procElems l = ((l.toList.map settingsClassify).flatten, false)) ∧
    (∀ fields : JObj,
        (∀ k ∈ model_list_keys, ∀ l, fields.lookup k = some (.arr l) →
            ∀ e ∈ l.toList, elemWFB e = true) →
        procKeys model_list_keys fields
          = ((model_list_keys.map (fun k =>
                match fields.lookup k with
                | some (.arr l) => (l.toList.map settingsClassify).flatten
                | _ => [])).flatten, false)) :=
  ⟨procElems_wf_flat, fun fields h => procKeys_wf model_list_keys fields h⟩

/-- C8 witness: a concrete list with one bare string and one mapping. -/
theorem claim_C8_settings_elements_witness :
    procElems (.cons (.str "sonar_x") (.cons (.obj (.cons "identifier" (.str "claude45sonnet") .nil)) .nil))
      = ((((JList.cons (.str "sonar_x") (.cons (.obj (.cons "identifier" (.str "claude45sonnet") .nil)) .nil)).toList.map settingsClassify).flatten), false) :=
  claim_C8_settings_elements.1 _ (by decide)
